import Mathlib

/-!
Shallow embedding of the WebRTC lipsync analyzer
(`src/utils/webrtcLipsync.ts`, `createWebRTCLipsyncAnalyzer`).

Magnitudes, scores, times and frequencies are modelled as exact rationals.
The analyzer's closed-over mutable locals (`connected`, `currentViseme`,
`visemeStartTime`, `history`, `binWidth`, and the audio-graph connections)
become an explicit `SessionState`; `connectStream`, `disconnect` and
`processAudio` become state transformers, and a session run is a fold of
events over the initial state.
-/

namespace WebRTCLipsync

/-- The 15 visemes, in the insertion order of the `scores` record literal in
`computeVisemeScores` (which is also the order of `VISEME_CATEGORIES`). -/
inductive Viseme
  | sil | PP | FF | TH | DD | KK | CH | SS | NN | RR | AA | E | I | O | U
deriving DecidableEq

/-- Enumeration order of the score-table keys: JavaScript `for..in` over the
`scores` object visits its string keys in insertion order. -/
def visemeOrder : List Viseme :=
  [.sil, .PP, .FF, .TH, .DD, .KK, .CH, .SS, .NN, .RR, .AA, .E, .I, .O, .U]

/-- The visemes whose `VISEME_CATEGORIES` entry is `'plosive'`, in the
iteration order of `Object.entries(VISEME_CATEGORIES)`. -/
def plosives : List Viseme := [.PP, .DD, .KK, .NN]

/-- `average` from the source: `arr.length ? arr.reduce((a, b) => a + b, 0) / arr.length : 0`. -/
def average (l : List ℚ) : ℚ := if l.length = 0 then 0 else l.sum / l.length

/-- One `AudioFeatures` snapshot. -/
structure AudioFeatures where
  bands : List ℚ
  deltaBands : List ℚ
  volume : ℚ
  centroid : ℚ
deriving DecidableEq

instance : Inhabited AudioFeatures := ⟨⟨[], [], 0, 0⟩⟩

/-- The seven fixed frequency bands `{ start, end }` of the analyzer. -/
def bands : List (ℚ × ℚ) :=
  [(50, 200), (200, 400), (400, 800), (800, 1500), (1500, 2500), (2500, 4000), (4000, 8000)]

/-- JavaScript `Math.round` on the nonnegative arguments that occur here
(round half up). -/
def jsRound (x : ℚ) : ℤ := Rat.floor (x + 1/2)

/-- JavaScript `Math.abs` on rationals. -/
def jsAbs (x : ℚ) : ℚ := if x < 0 then -x else x

/-- Band energies of one magnitude frame: for each band,
`average(dataArray.slice(round(start/binWidth), min(round(end/binWidth), len-1))) / 255`. -/
def bandEnergies (binWidth : ℚ) (frame : List ℚ) : List ℚ :=
  bands.map fun se =>
    let startBin := (jsRound (se.1 / binWidth)).toNat
    let endBin := min (jsRound (se.2 / binWidth)).toNat (frame.length - 1)
    average ((frame.drop startBin).take (endBin - startBin)) / 255

/-- Total normalized energy `Σ dataArray[i]/255` over the whole frame. -/
def totalEnergy (frame : List ℚ) : ℚ :=
  ((List.range frame.length).map fun i => frame.getD i 0 / 255).sum

/-- Energy-weighted frequency sum `Σ (i*binWidth) * dataArray[i]/255`. -/
def weightedSum (binWidth : ℚ) (frame : List ℚ) : ℚ :=
  ((List.range frame.length).map fun i => (i * binWidth) * (frame.getD i 0 / 255)).sum

/-- Spectral centroid: `weightedSum / totalEnergy` when there is energy, else 0. -/
def centroid (binWidth : ℚ) (frame : List ℚ) : ℚ :=
  if 0 < totalEnergy frame then weightedSum binWidth frame / totalEnergy frame else 0

/-- Delta bands: `0` while fewer than two history entries are stored, else
`energy - history[history.length - 2].bands[idx]`. -/
def deltaBands (history : List AudioFeatures) (bandE : List ℚ) : List ℚ :=
  bandE.enum.map fun iv =>
    if history.length < 2 then 0
    else iv.2 - ((history.getD (history.length - 2) default).bands.getD iv.1 0)

/-- `extractFeatures` on a frame, given the current history (used only for the
delta bands) and the bin width. -/
def extractFeatures (binWidth : ℚ) (history : List AudioFeatures) (frame : List ℚ) :
    AudioFeatures :=
  let bandE := bandEnergies binWidth frame
  { bands := bandE
    deltaBands := deltaBands history bandE
    volume := average bandE
    centroid := centroid binWidth frame }

/-- `historySize = 10`. -/
def historySize : ℕ := 10

/-- History update at the end of `extractFeatures`: push the snapshot only when
`totalEnergy > 0`, then drop the oldest entry if the buffer exceeds 10. -/
def pushHistory (history : List AudioFeatures) (f : AudioFeatures) (tE : ℚ) :
    List AudioFeatures :=
  if 0 < tE then
    let h := history ++ [f]
    if historySize < h.length then h.drop 1 else h
  else history

/-- `getAveragedFeatures`: arithmetic mean of volume, centroid and each band
over all stored snapshots; all-zero when the history is empty. -/
def getAveragedFeatures (history : List AudioFeatures) : AudioFeatures :=
  let count : ℚ := history.length
  let volumeSum := (history.map fun h => h.volume).sum
  let centroidSum := (history.map fun h => h.centroid).sum
  let bandSums := (List.range bands.length).map fun i =>
    (history.map fun h => h.bands.getD i 0).sum
  if 0 < history.length then
    { volume := volumeSum / count
      centroid := centroidSum / count
      bands := bandSums.map fun b => b / count
      deltaBands := List.replicate bands.length 0 }
  else
    { volume := 0, centroid := 0
      bands := List.replicate bands.length 0
      deltaBands := List.replicate bands.length 0 }

/-- Overwrite one entry of a score table. -/
def update (s : Viseme → ℚ) (v : Viseme) (x : ℚ) : Viseme → ℚ :=
  fun w => if w = v then x else s w

/-- Add to one entry of a score table (`scores[v] += x`). -/
def addTo (s : Viseme → ℚ) (v : Viseme) (x : ℚ) : Viseme → ℚ :=
  update s v (s v + x)

/-- Loop body of the plosive scoring pass, applied to each plosive viseme:
`-0.5` if `volumeDelta < 0.01`, `+0.2` if `averaged.volume < 0.2`,
`+0.2` if `centroidDelta > 1000`. -/
def plosiveStep (volumeDelta avgVolume centroidDelta : ℚ) (s : Viseme → ℚ)
    (v : Viseme) : Viseme → ℚ :=
  let s1 := if volumeDelta < 0.01 then addTo s v (-0.5) else s
  let s2 := if avgVolume < 0.2 then addTo s1 v 0.2 else s1
  if 1000 < centroidDelta then addTo s2 v 0.2 else s2

/-- `computeVisemeScores`, statement by statement. -/
def computeVisemeScores (current averaged : AudioFeatures)
    (volumeDelta centroidDelta : ℚ) : Viseme → ℚ :=
  let scores0 : Viseme → ℚ := fun _ => 0
  -- Silence detection
  let s1 := if averaged.volume < 0.2 ∧ current.volume < 0.2 then update scores0 .sil 1
    else scores0
  -- Plosive scoring
  let s2 := plosives.foldl (plosiveStep volumeDelta averaged.volume centroidDelta) s1
  -- Consonant detection based on centroid
  let band6 := current.bands.getD 6 0
  let s3 :=
    if 1000 < current.centroid ∧ current.centroid < 8000 then
      if 7000 < current.centroid then addTo s2 .DD 0.6
      else if 5000 < current.centroid then addTo s2 .KK 0.6
      else if 4000 < current.centroid then
        let sP := addTo s2 .PP 1
        if 0.25 < band6 ∧ current.centroid < 6000 then addTo sP .DD 1.4 else sP
      else addTo s2 .NN 0.6
    else s2
  -- Fricative detection
  let s4 :=
    if 1000 < centroidDelta ∧ 6000 < current.centroid ∧ 5000 < averaged.centroid ∧
        0.4 < current.bands.getD 6 0 ∧ 0.3 < averaged.bands.getD 6 0 then
      update s3 .FF 0.7
    else s3
  -- Vowel detection
  if 0.1 < averaged.volume ∧ averaged.centroid < 6000 ∧ current.centroid < 6000 then
    let b1 := averaged.bands.getD 1 0
    let b2 := averaged.bands.getD 2 0
    let b3 := averaged.bands.getD 3 0
    let b4 := averaged.bands.getD 4 0
    let band1Diff := jsAbs (b1 - b2)
    let bandVariance := max (max (jsAbs (b2 - b3)) (jsAbs (b2 - b4))) (jsAbs (b3 - b4))
    if 0.1 < b3 ∨ 0.1 < b4 then
      -- aa - open vowel
      let sA := if b3 < b4 then
          (let a0 := update s4 .AA 0.8
           if b2 < b3 then addTo a0 .AA 0.2 else a0)
        else s4
      -- I - high front vowel
      let sI := if b2 < b3 ∧ b4 < b3 then update sA .I 0.7 else sA
      -- U - high back vowel
      let sU := if band1Diff < 0.25 then update sI .U 0.7 else sI
      -- O - mid back vowel
      let sO := if bandVariance < 0.25 then update sU .O 0.9 else sU
      -- E - mid front vowel
      let sE := if b3 < b2 ∧ b4 < b3 then update sO .E 1 else sO
      -- Additional vowel refinements
      let r1 := if b3 < 0.2 ∧ 0.3 < b4 then update sE .I 0.7 else sE
      let r2 := if 0.25 < b3 ∧ 0.25 < b4 then update r1 .O 0.7 else r1
      if b3 < 0.15 ∧ b4 < 0.15 then update r2 .U 0.7 else r2
    else s4
  else s4

/-- `maxVisemeDuration = 100`. -/
def maxVisemeDuration : ℚ := 100

/-- Dwell-time multiplier of `adjustScoresForConsistency`. -/
def multiplier (elapsed : ℚ) : ℚ :=
  if elapsed ≤ 100 then 1.3
  else if elapsed ≤ maxVisemeDuration then
    1.3 - 0.3 * ((elapsed - 100) / (maxVisemeDuration - 100))
  else max 0.5 (1 - (elapsed - maxVisemeDuration) / 1000)

/-- `adjustScoresForConsistency`: multiply the entry matching `currentViseme`
(the enum strings are all truthy, so the surrounding `if (currentViseme)` always
holds) and leave every other entry unchanged. -/
def adjustScoresForConsistency (currentViseme : Viseme) (elapsed : ℚ)
    (scores : Viseme → ℚ) : Viseme → ℚ :=
  fun v => if v = currentViseme then scores v * multiplier elapsed else scores v

/-- Loop body of the best-viseme search: `bestScore` starts at `-Infinity`
(modelled as `none`), and an entry replaces the best only on a strictly
greater score. -/
def selectStep (s : Viseme → ℚ) (acc : Viseme × Option ℚ) (v : Viseme) :
    Viseme × Option ℚ :=
  match acc.2 with
  | none => (v, some (s v))
  | some b => if b < s v then (v, some (s v)) else acc

/-- The `for..in` argmax of `processAudio`, over the keys in insertion order. -/
def selectBest (s : Viseme → ℚ) : Viseme :=
  (visemeOrder.foldl (selectStep s) (Viseme.sil, none)).1

/-- Audio-graph nodes that occur in the source: the `MediaStreamAudioSourceNode`,
the `AnalyserNode`, and the context's output `destination`. -/
inductive AudioNode
  | source | analyser | destination
deriving DecidableEq

/-- The closed-over mutable state of one analyzer, plus the set of `connect`
edges of the underlying audio graph. -/
structure SessionState where
  connected : Bool
  currentViseme : Viseme
  visemeStartTime : ℚ
  history : List AudioFeatures
  binWidth : ℚ
  graphEdges : List (AudioNode × AudioNode)
deriving DecidableEq

/-- `disconnect`: tear down the nodes (removing every graph edge), clear
`dataArray`, mark disconnected, reset the viseme to silence and empty the
history. `visemeStartTime` and `binWidth` are not touched. -/
def disconnect (st : SessionState) : SessionState :=
  { st with connected := false, currentViseme := .sil, history := [], graphEdges := [] }

/-- `connectStream` (successful path): implicit disconnect when already
connected, then create the context and analyser, connect the source node to the
analyser only (never to `audioContext.destination`), set the bin width from the
sample rate, mark connected, clear the history and record the start time. -/
def connectStream (st : SessionState) (now sampleRate : ℚ) : SessionState :=
  let st0 := if st.connected then disconnect st else st
  { st0 with
    connected := true
    binWidth := sampleRate / 2048
    history := []
    visemeStartTime := now
    graphEdges := [(.source, .analyser)] }

/-- `processAudio`: when no analyser/data array is present the features are
`null` and the viseme is forced to silence; otherwise extract features, update
the history, average, score, adjust for consistency, and pick the best viseme,
resetting the dwell timer only on a change. -/
def processAudio (st : SessionState) (frame : List ℚ) (now : ℚ) : SessionState :=
  if st.connected = false then { st with currentViseme := .sil }
  else
    let features := extractFeatures st.binWidth st.history frame
    let history := pushHistory st.history features (totalEnergy frame)
    let averaged := getAveragedFeatures history
    let volumeDelta := features.volume - averaged.volume
    let centroidDelta := features.centroid - averaged.centroid
    let scores := computeVisemeScores features averaged volumeDelta centroidDelta
    let adjusted := adjustScoresForConsistency st.currentViseme (now - st.visemeStartTime) scores
    let best := selectBest adjusted
    if best = st.currentViseme then { st with history := history }
    else { st with currentViseme := best, visemeStartTime := now, history := history }

/-- The analyzer as created by `createWebRTCLipsyncAnalyzer`: disconnected,
silent, empty history, default 44100 Hz sample rate over a 2048-point FFT. -/
def initState : SessionState :=
  { connected := false
    currentViseme := .sil
    visemeStartTime := 0
    history := []
    binWidth := 44100 / 2048
    graphEdges := [] }

/-- External events driving one session. -/
inductive Event
  | connect (now sampleRate : ℚ)
  | disconnect
  | tick (frame : List ℚ) (now : ℚ)

/-- One step of the session state machine. -/
def step (st : SessionState) : Event → SessionState
  | .connect now sr => connectStream st now sr
  | .disconnect => WebRTCLipsync.disconnect st
  | .tick frame now => processAudio st frame now

/-- A session run: fold a list of events over a starting state. -/
def run (st : SessionState) (events : List Event) : SessionState :=
  events.foldl step st

/-! ### The best-viseme search, rephrased recursively -/

/-- The score-table keys after the first one. -/
def restOrder : List Viseme :=
  [.PP, .FF, .TH, .DD, .KK, .CH, .SS, .NN, .RR, .AA, .E, .I, .O, .U]

lemma visemeOrder_eq : visemeOrder = Viseme.sil :: restOrder := rfl

/-- Recursive form of the best-viseme fold once a best score is present. -/
def selGo (s : Viseme → ℚ) : List Viseme → Viseme → Viseme
  | [], v => v
  | w :: l, v => selGo s l (if s v < s w then w else v)

lemma foldl_selectStep (s : Viseme → ℚ) :
    ∀ (l : List Viseme) (v : Viseme),
      l.foldl (selectStep s) (v, some (s v)) = (selGo s l v, some (s (selGo s l v))) := by
  intro l
  induction l with
  | nil => intro v; rfl
  | cons w l ih =>
    intro v
    have hstep : selectStep s (v, some (s v)) w =
        ((if s v < s w then w else v), some (s (if s v < s w then w else v))) := by
      simp only [selectStep]
      split <;> simp_all
    rw [List.foldl_cons, hstep, ih, selGo]

lemma selectBest_eq_selGo (s : Viseme → ℚ) :
    selectBest s = selGo s restOrder .sil := by
  have h0 : selectStep s (Viseme.sil, none) Viseme.sil =
      (Viseme.sil, some (s Viseme.sil)) := rfl
  rw [selectBest, visemeOrder_eq, List.foldl_cons, h0, foldl_selectStep]

lemma le_selGo_base (s : Viseme → ℚ) : ∀ (l : List Viseme) (v : Viseme), s v ≤ s (selGo s l v) := by
  intro l
  induction l with
  | nil => intro v; exact le_rfl
  | cons w l ih =>
    intro v
    rw [selGo]
    by_cases h : s v < s w
    · rw [if_pos h]; exact le_of_lt (lt_of_lt_of_le h (ih w))
    · rw [if_neg h]; exact ih v

lemma mem_le_selGo (s : Viseme → ℚ) :
    ∀ (l : List Viseme) (v w : Viseme), w ∈ l → s w ≤ s (selGo s l v) := by
  intro l
  induction l with
  | nil => intro v w hw; exact absurd hw (List.not_mem_nil w)
  | cons u l ih =>
    intro v w hw
    rw [selGo]
    rcases List.mem_cons.1 hw with rfl | hw
    · by_cases h : s v < s w
      · rw [if_pos h]; exact le_selGo_base s l w
      · rw [if_neg h]; exact le_trans (not_lt.1 h) (le_selGo_base s l v)
    · exact ih _ w hw

/-- Every key strictly before the fold's winner scores strictly below it. -/
lemma selGo_first (s : Viseme → ℚ) :
    ∀ (l : List Viseme) (v : Viseme), selGo s l v = v ∨
      ∃ l1 l2, l = l1 ++ selGo s l v :: l2 ∧ s v < s (selGo s l v) ∧
        ∀ w ∈ l1, s w < s (selGo s l v) := by
  intro l
  induction l with
  | nil => intro v; exact Or.inl rfl
  | cons u l ih =>
    intro v
    rw [selGo]
    by_cases h : s v < s u
    · rw [if_pos h]
      rcases ih u with h1 | ⟨l1, l2, he, hlt, hall⟩
      · right
        refine ⟨[], l, ?_, ?_, by simp⟩
        · rw [h1]; rfl
        · rw [h1]; exact h
      · right
        refine ⟨u :: l1, l2, ?_, lt_trans h hlt, ?_⟩
        · rw [List.cons_append, ← he]
        · intro w hw
          rcases List.mem_cons.1 hw with rfl | hw
          · exact hlt
          · exact hall w hw
    · rw [if_neg h]
      rcases ih v with h1 | ⟨l1, l2, he, hlt, hall⟩
      · exact Or.inl h1
      · right
        refine ⟨u :: l1, l2, ?_, hlt, ?_⟩
        · rw [List.cons_append, ← he]
        · intro w hw
          rcases List.mem_cons.1 hw with rfl | hw
          · exact lt_of_le_of_lt (not_lt.1 h) hlt
          · exact hall w hw

lemma visemeOrder_complete (v : Viseme) : v ∈ visemeOrder := by
  cases v <;> simp [visemeOrder]

/-- Position of a viseme among the score-table keys. -/
def orderIdx (v : Viseme) : ℕ := visemeOrder.indexOf v

lemma le_selectBest (s : Viseme → ℚ) (v : Viseme) : s v ≤ s (selectBest s) := by
  rw [selectBest_eq_selGo]
  rcases List.mem_cons.1 (visemeOrder_complete v) with rfl | hv
  · exact le_selGo_base s restOrder Viseme.sil
  · exact mem_le_selGo s restOrder .sil v hv

end WebRTCLipsync

namespace WebRTCLipsync

/-- C1 counterexample: at a dwell of 150 ms on the current viseme with raw
score 1, the stabilizer multiplies by `max(0.5, 1 − (150 − 100)/1000) = 0.95`,
not by the claimed linear decay `1.3 − 0.3·((150 − 100)/(200 − 100)) = 1.15`:
`maxVisemeDuration` is 100 ms, so no linear-decay window up to 200 ms exists. -/
theorem C1_counterexample :
    adjustScoresForConsistency Viseme.AA 150 (fun _ => 1) Viseme.AA = 0.95 ∧
    (0.95 : ℚ) ≠ 1.3 - 0.3 * ((150 - 100) / (200 - 100)) := by
  constructor
  · show (1 : ℚ) * multiplier 150 = 0.95
    rw [multiplier, maxVisemeDuration]
    norm_num
  · norm_num

/-- C1 (amended): on every tick the stabilizer multiplies only the entry
matching `currentViseme`, by 1.3 when `elapsed ≤ 100 ms` and by
`max(0.5, 1 − (elapsed − 100 ms)/1000 ms)` beyond 100 ms (the linear-decay
branch up to `maxVisemeDuration` is unreachable since `maxVisemeDuration =
100 ms`); every other viseme's score is left unchanged. -/
theorem C1_stabilizer_multiplier (cur : Viseme) (elapsed : ℚ) (s : Viseme → ℚ)
    (v : Viseme) :
    adjustScoresForConsistency cur elapsed s v =
      if v = cur then
        s v * (if elapsed ≤ 100 then 1.3 else max 0.5 (1 - (elapsed - 100) / 1000))
      else s v := by
  by_cases h1 : elapsed ≤ 100 <;>
    simp [adjustScoresForConsistency, multiplier, maxVisemeDuration, h1]

/-- C5: the stabilizer's selection is the entry with the maximal adjusted
score, and on ties it is the first-encountered maximum in the enumeration
order `sil, PP, FF, TH, DD, kk, CH, SS, nn, RR, aa, E, I, O, U`; being a pure
function of the score table, the choice is identical on every run with the
same inputs. -/
theorem C5_argmax_first_in_order (s : Viseme → ℚ) :
    (∀ v, s v ≤ s (selectBest s)) ∧
    (∀ v, s v = s (selectBest s) → orderIdx (selectBest s) ≤ orderIdx v) := by
  refine ⟨le_selectBest s, ?_⟩
  intro v hv
  rw [selectBest_eq_selGo] at hv ⊢
  have hfirst := selGo_first s restOrder Viseme.sil
  generalize hR : selGo s restOrder Viseme.sil = r at hv hfirst ⊢
  rcases hfirst with h1 | ⟨l1, l2, he, hlt, hall⟩
  · rw [h1]
    rw [show orderIdx Viseme.sil = 0 from rfl]
    exact Nat.zero_le _
  · have hvo : visemeOrder = (Viseme.sil :: l1) ++ r :: l2 := by
      rw [visemeOrder_eq, List.cons_append, ← he]
    have hv_not : v ∉ (Viseme.sil :: l1) := by
      intro hmem
      have hlt2 : s v < s r := by
        rcases List.mem_cons.1 hmem with rfl | hmem
        · exact hlt
        · exact hall v hmem
      rw [hv] at hlt2
      exact lt_irrefl _ hlt2
    have hr_not : r ∉ (Viseme.sil :: l1) := by
      intro hmem
      have hlt2 : s r < s r := by
        rcases List.mem_cons.1 hmem with h2 | hmem
        · rw [← h2] at hlt; exact hlt
        · exact hall _ hmem
      exact lt_irrefl _ hlt2
    rw [orderIdx, orderIdx, hvo, List.indexOf_append_of_not_mem hv_not,
      List.indexOf_append_of_not_mem hr_not, List.indexOf_cons_self]
    exact Nat.add_le_add_left (Nat.zero_le _) _

/-- C5 witness: with FF and TH tied at the maximum adjusted score, the
selection is FF, the one of lower enumeration index (here instantiated through
the theorem at TH). -/
theorem C5_argmax_first_in_order_witness :
    orderIdx (selectBest fun v => if v = Viseme.FF ∨ v = Viseme.TH then (2 : ℚ) else 0) ≤
      orderIdx Viseme.TH := by
  refine (C5_argmax_first_in_order _).2 Viseme.TH ?_
  have hsel : selectBest (fun v => if v = Viseme.FF ∨ v = Viseme.TH then (2 : ℚ) else 0) =
      Viseme.FF := by decide
  rw [hsel]
  decide

/-! ### Pointwise evaluation of the score table -/

lemma update_apply (s : Viseme → ℚ) (v : Viseme) (x : ℚ) (w : Viseme) :
    update s v x w = if w = v then x else s w := rfl

lemma addTo_apply (s : Viseme → ℚ) (v : Viseme) (x : ℚ) (w : Viseme) :
    addTo s v x w = if w = v then s v + x else s w := rfl

/-- The per-plosive base contribution of the plosive scoring pass. -/
def pbase (volumeDelta avgVolume centroidDelta : ℚ) : ℚ :=
  (if volumeDelta < 0.01 then (-0.5 : ℚ) else 0) +
    (if avgVolume < 0.2 then (0.2 : ℚ) else 0) +
    (if 1000 < centroidDelta then (0.2 : ℚ) else 0)

lemma plosiveStep_eq (vd av cd : ℚ) (s : Viseme → ℚ) (v : Viseme) :
    plosiveStep vd av cd s v = update s v (s v + pbase vd av cd) := by
  funext w
  simp only [plosiveStep, pbase, ite_apply, addTo_apply, update_apply]
  split_ifs <;> subst_vars <;> ring

lemma plosiveFold_eq (vd av cd : ℚ) (s : Viseme → ℚ) :
    plosives.foldl (plosiveStep vd av cd) s =
      fun w => if w = .PP ∨ w = .DD ∨ w = .KK ∨ w = .NN then s w + pbase vd av cd
        else s w := by
  funext w
  simp only [plosives, List.foldl_cons, List.foldl_nil, plosiveStep_eq, update_apply]
  rcases w <;> simp

/-- The silence entry of the score table is exactly the silence-detection rule. -/
lemma scores_sil (current averaged : AudioFeatures) (vd cd : ℚ) :
    computeVisemeScores current averaged vd cd .sil =
      if averaged.volume < 0.2 ∧ current.volume < 0.2 then 1 else 0 := by
  simp only [computeVisemeScores, plosiveFold_eq, ite_apply, update_apply, addTo_apply]
  simp

/-- The dwell multiplier is always strictly positive (it is 1.3 or at least 0.5). -/
lemma multiplier_pos (e : ℚ) : 0 < multiplier e := by
  rw [multiplier, maxVisemeDuration]
  split_ifs with h1
  · norm_num
  · exact lt_of_lt_of_le (by norm_num) (le_max_left _ _)

/-- C4: each plosive score is the plosive base contribution plus the single
centroid-band addition selected by the `1000 < centroid < 8000` if/else chain
(`+0.6 DD` above 7000; else `+0.6 KK` above 5000; else `+1.0 PP` above 4000
with a further `+1.4 DD` when `bands[6] > 0.25` and `centroid < 6000`; else
`+0.6 NN`). -/
theorem C4_plosive_scores (current averaged : AudioFeatures) (vd cd : ℚ) :
    (computeVisemeScores current averaged vd cd .PP =
      pbase vd averaged.volume cd +
        (if 1000 < current.centroid ∧ current.centroid < 8000 then
          (if 7000 < current.centroid then 0
           else if 5000 < current.centroid then 0
           else if 4000 < current.centroid then 1 else 0)
         else 0)) ∧
    (computeVisemeScores current averaged vd cd .DD =
      pbase vd averaged.volume cd +
        (if 1000 < current.centroid ∧ current.centroid < 8000 then
          (if 7000 < current.centroid then 0.6
           else if 5000 < current.centroid then 0
           else if 4000 < current.centroid then
             (if 0.25 < current.bands.getD 6 0 ∧ current.centroid < 6000 then 1.4 else 0)
           else 0)
         else 0)) ∧
    (computeVisemeScores current averaged vd cd .KK =
      pbase vd averaged.volume cd +
        (if 1000 < current.centroid ∧ current.centroid < 8000 then
          (if 7000 < current.centroid then 0
           else if 5000 < current.centroid then 0.6 else 0)
         else 0)) ∧
    (computeVisemeScores current averaged vd cd .NN =
      pbase vd averaged.volume cd +
        (if 1000 < current.centroid ∧ current.centroid < 8000 then
          (if 7000 < current.centroid then 0
           else if 5000 < current.centroid then 0
           else if 4000 < current.centroid then 0 else 0.6)
         else 0)) := by
  refine ⟨?_, ?_, ?_, ?_⟩ <;>
    · simp only [computeVisemeScores, plosiveFold_eq, ite_apply, update_apply, addTo_apply]
      simp only [show (Viseme.PP = Viseme.sil) = False by simp,
        show (Viseme.DD = Viseme.sil) = False by simp,
        show (Viseme.KK = Viseme.sil) = False by simp,
        show (Viseme.NN = Viseme.sil) = False by simp]
      simp
      split_ifs <;> ring

/-- C3: under the vowel gate, the vowel entries of the score table follow the
stated rules, with the three refinements overwriting the earlier values
(writing `bN` for `averaged.bands[N]`): `AA` is 0.8 plus 0.2 if `b3 > b2`,
when `b4 > b3`; `I` is 0.7 when `b3 > b2 ∧ b3 > b4`, overwritten to 0.7 when
`b3 < 0.2 ∧ b4 > 0.3`; `U` is 0.7 when `|b1 − b2| < 0.25`, overwritten to 0.7
when `b3 < 0.15 ∧ b4 < 0.15`; `O` is 0.9 when the pairwise band variance is
below 0.25, overwritten to 0.7 when `b3 > 0.25 ∧ b4 > 0.25`; `E` is 1.0 when
`b2 > b3 > b4`. -/
theorem C3_vowel_scores (current averaged : AudioFeatures) (vd cd : ℚ)
    (hvol : 0.1 < averaged.volume) (hac : averaged.centroid < 6000)
    (hcc : current.centroid < 6000)
    (hgate : 0.1 < averaged.bands.getD 3 0 ∨ 0.1 < averaged.bands.getD 4 0) :
    (computeVisemeScores current averaged vd cd .AA =
      (if averaged.bands.getD 3 0 < averaged.bands.getD 4 0 then
        0.8 + (if averaged.bands.getD 2 0 < averaged.bands.getD 3 0 then 0.2 else 0)
       else 0)) ∧
    (computeVisemeScores current averaged vd cd .I =
      (if averaged.bands.getD 3 0 < 0.2 ∧ 0.3 < averaged.bands.getD 4 0 then 0.7
       else if averaged.bands.getD 2 0 < averaged.bands.getD 3 0 ∧
           averaged.bands.getD 4 0 < averaged.bands.getD 3 0 then 0.7
       else 0)) ∧
    (computeVisemeScores current averaged vd cd .U =
      (if averaged.bands.getD 3 0 < 0.15 ∧ averaged.bands.getD 4 0 < 0.15 then 0.7
       else if jsAbs (averaged.bands.getD 1 0 - averaged.bands.getD 2 0) < 0.25 then 0.7
       else 0)) ∧
    (computeVisemeScores current averaged vd cd .O =
      (if 0.25 < averaged.bands.getD 3 0 ∧ 0.25 < averaged.bands.getD 4 0 then 0.7
       else if max (max (jsAbs (averaged.bands.getD 2 0 - averaged.bands.getD 3 0))
           (jsAbs (averaged.bands.getD 2 0 - averaged.bands.getD 4 0)))
           (jsAbs (averaged.bands.getD 3 0 - averaged.bands.getD 4 0)) < 0.25 then 0.9
       else 0)) ∧
    (computeVisemeScores current averaged vd cd .E =
      (if averaged.bands.getD 3 0 < averaged.bands.getD 2 0 ∧
          averaged.bands.getD 4 0 < averaged.bands.getD 3 0 then 1 else 0)) := by
  refine ⟨?_, ?_, ?_, ?_, ?_⟩ <;>
    · simp only [computeVisemeScores, plosiveFold_eq, ite_apply, update_apply, addTo_apply]
      simp at hgate
      simp [hvol, hac, hcc, hgate]
      try (split_ifs <;> norm_num)

/-- Averaged features used to exercise the vowel gate in the C3 witness. -/
def avgC3 : AudioFeatures :=
  { bands := [0, 0.1, 0.3, 0.2, 0.4, 0, 0], deltaBands := [], volume := 0.15, centroid := 500 }

/-- Current-frame features used in the C3 witness. -/
def curC3 : AudioFeatures :=
  { bands := [0, 0, 0, 0, 0, 0, 0], deltaBands := [], volume := 0, centroid := 500 }

/-- C3 witness: at a concrete gated input with `b3 = 0.2 < b4 = 0.4` and
`b2 = 0.3 ≥ b3`, the AA score is 0.8. -/
theorem C3_vowel_scores_witness :
    computeVisemeScores curC3 avgC3 0 0 .AA = 0.8 := by
  have h := (C3_vowel_scores curC3 avgC3 0 0 (by norm_num [avgC3])
    (by norm_num [avgC3]) (by norm_num [curC3])
    (Or.inr (by norm_num [avgC3]))).1
  rw [h]
  norm_num [avgC3]

/-- C10: on every tick the winning viseme's adjusted score is nonnegative
(the silence entry is 0 or 1 and its dwell multiplier is positive, so the
maximum is at least the adjusted silence score), and therefore a viseme whose
adjusted score is negative can never be selected as `currentViseme`. -/
theorem C10_winner_score_nonneg (current averaged : AudioFeatures) (vd cd : ℚ)
    (cur : Viseme) (elapsed : ℚ) :
    0 ≤ adjustScoresForConsistency cur elapsed (computeVisemeScores current averaged vd cd)
        (selectBest (adjustScoresForConsistency cur elapsed
          (computeVisemeScores current averaged vd cd))) ∧
    ∀ v, adjustScoresForConsistency cur elapsed (computeVisemeScores current averaged vd cd) v < 0 →
      selectBest (adjustScoresForConsistency cur elapsed
        (computeVisemeScores current averaged vd cd)) ≠ v := by
  have hsil0 : 0 ≤ computeVisemeScores current averaged vd cd .sil := by
    rw [scores_sil]
    split_ifs <;> norm_num
  have hsil : 0 ≤ adjustScoresForConsistency cur elapsed
      (computeVisemeScores current averaged vd cd) .sil := by
    rw [adjustScoresForConsistency]
    split_ifs
    · exact mul_nonneg hsil0 (le_of_lt (multiplier_pos elapsed))
    · exact hsil0
  have hwin : 0 ≤ adjustScoresForConsistency cur elapsed
      (computeVisemeScores current averaged vd cd)
      (selectBest (adjustScoresForConsistency cur elapsed
        (computeVisemeScores current averaged vd cd))) :=
    le_trans hsil (le_selectBest _ .sil)
  refine ⟨hwin, ?_⟩
  intro v hv heq
  rw [heq] at hwin
  exact absurd (lt_of_le_of_lt hwin hv) (lt_irrefl 0)

/-- All-zero features used in the C10 witness. -/
def zeroFeatures : AudioFeatures :=
  { bands := [0, 0, 0, 0, 0, 0, 0], deltaBands := [], volume := 0, centroid := 0 }

/-- C10 witness: with all-zero features the PP entry scores −0.3 after
adjustment (volumeDelta 0 < 0.01 gives −0.5, averaged volume < 0.2 gives
+0.2), so PP is not selected. -/
theorem C10_winner_score_nonneg_witness :
    selectBest (adjustScoresForConsistency Viseme.AA 0
      (computeVisemeScores zeroFeatures zeroFeatures 0 0)) ≠ Viseme.PP := by
  refine (C10_winner_score_nonneg zeroFeatures zeroFeatures 0 0 Viseme.AA 0).2 Viseme.PP ?_
  have hpp : computeVisemeScores zeroFeatures zeroFeatures 0 0 .PP = -0.3 := by
    simp only [computeVisemeScores, plosiveFold_eq, ite_apply, update_apply, addTo_apply]
    norm_num [zeroFeatures, pbase]
    decide
  rw [adjustScoresForConsistency]
  rw [if_neg (show ¬(Viseme.PP = Viseme.AA) by decide)]
  rw [hpp]
  norm_num

/-! ### Session traces: the audio graph and teardown -/

lemma processAudio_graphEdges (st : SessionState) (f : List ℚ) (n : ℚ) :
    (processAudio st f n).graphEdges = st.graphEdges := by
  rw [processAudio]
  split
  · rfl
  · dsimp only
    split <;> rfl

lemma step_edges_inv (st : SessionState)
    (h : st.graphEdges = [] ∨ st.graphEdges = [(.source, .analyser)]) (e : Event) :
    (step st e).graphEdges = [] ∨ (step st e).graphEdges = [(.source, .analyser)] := by
  cases e with
  | connect now sr => exact Or.inr rfl
  | disconnect => exact Or.inl rfl
  | tick f n => rw [step, processAudio_graphEdges]; exact h

lemma run_edges_inv (events : List Event) :
    ∀ (st : SessionState),
      st.graphEdges = [] ∨ st.graphEdges = [(.source, .analyser)] →
      (run st events).graphEdges = [] ∨
        (run st events).graphEdges = [(.source, .analyser)] := by
  induction events with
  | nil => intro st h; exact h
  | cons e es ih =>
    intro st h
    exact ih (step st e) (step_edges_inv st h e)

/-- C8: in every reachable session state the only audio-graph edge ever
present is source → analyser; in particular no node is ever connected to the
context's output destination, so the analyzer never routes audio to a speaker. -/
theorem C8_never_routes_to_destination (events : List Event) :
    (∀ e ∈ (run initState events).graphEdges, e = (AudioNode.source, AudioNode.analyser)) ∧
    (∀ e ∈ (run initState events).graphEdges, e.2 ≠ AudioNode.destination) := by
  have h := run_edges_inv events initState (Or.inl rfl)
  constructor
  · intro e he
    rcases h with h | h <;> rw [h] at he
    · exact absurd he (List.not_mem_nil e)
    · simpa using he
  · intro e he hdest
    rcases h with h | h <;> rw [h] at he
    · exact absurd he (List.not_mem_nil e)
    · have : e = (AudioNode.source, AudioNode.analyser) := by simpa using he
      rw [this] at hdest
      exact absurd hdest (by decide)

/-- C8 witness: immediately after a connect, the one edge present targets the
analyser, not the destination. -/
theorem C8_never_routes_to_destination_witness :
    ∀ e ∈ (run initState [Event.connect 0 44100]).graphEdges,
      e.2 ≠ AudioNode.destination := by
  intro e he
  exact (C8_never_routes_to_destination [Event.connect 0 44100]).2 e he

/-- C9: `disconnect` is idempotent (a second call changes nothing), and after
`connect → tick (non-silent) → disconnect` the session reports the silence
viseme and is disconnected, and a subsequent `connect` starts with an empty
history. -/
theorem C9_disconnect_reset :
    (∀ st : SessionState, disconnect (disconnect st) = disconnect st) ∧
    ∀ (st : SessionState) (t sr : ℚ) (f : List ℚ) (now : ℚ), 0 < totalEnergy f →
      (disconnect (processAudio (connectStream st t sr) f now)).currentViseme = Viseme.sil ∧
      (disconnect (processAudio (connectStream st t sr) f now)).connected = false ∧
      ∀ t2 sr2 : ℚ,
        (connectStream (disconnect (processAudio (connectStream st t sr) f now)) t2 sr2).history
          = [] := by
  exact ⟨fun st => rfl, fun st t sr f now hf => ⟨rfl, rfl, fun t2 sr2 => rfl⟩⟩

/-- C9 witness: a concrete connect → non-silent tick → disconnect run ends
silent; the frame `[255]` has positive total energy. -/
theorem C9_disconnect_reset_witness :
    0 < totalEnergy [(255 : ℚ)] ∧
    (disconnect (processAudio (connectStream initState 0 44100) [(255 : ℚ)] 16)).currentViseme
      = Viseme.sil := by
  have hf : 0 < totalEnergy [(255 : ℚ)] := by
    norm_num [totalEnergy, List.range_succ]
  exact ⟨hf, (C9_disconnect_reset.2 initState 0 44100 [(255 : ℚ)] 16 hf).1⟩

/-! ### All-zero magnitude frames -/

lemma totalEnergy_replicate_zero (n : ℕ) : totalEnergy (List.replicate n 0) = 0 := by
  rw [totalEnergy]
  apply List.sum_eq_zero
  intro x hx
  rcases List.mem_map.1 hx with ⟨i, hi, rfl⟩
  simp

lemma average_replicate_zero (n : ℕ) : average (List.replicate n 0) = 0 := by
  rw [average]
  split_ifs with h
  · rfl
  · rw [List.sum_replicate]
    simp

lemma bandEnergies_replicate_zero (bw : ℚ) (n : ℕ) :
    bandEnergies bw (List.replicate n 0) = List.replicate 7 0 := by
  rw [bandEnergies, bands]
  simp only [List.map_cons, List.map_nil, List.drop_replicate, List.take_replicate,
    average_replicate_zero, zero_div]
  rfl

lemma centroid_replicate_zero (bw : ℚ) (n : ℕ) :
    centroid bw (List.replicate n 0) = 0 := by
  rw [centroid, totalEnergy_replicate_zero]
  norm_num

lemma extractFeatures_replicate_zero (bw : ℚ) (history : List AudioFeatures) (n : ℕ) :
    (extractFeatures bw history (List.replicate n 0)).volume = 0 ∧
    (extractFeatures bw history (List.replicate n 0)).centroid = 0 := by
  constructor
  · show average (bandEnergies bw (List.replicate n 0)) = 0
    rw [bandEnergies_replicate_zero, average_replicate_zero]
  · show centroid bw (List.replicate n 0) = 0
    exact centroid_replicate_zero bw n

/-! ### Silence wins when the retained average volume is low -/

lemma multiplier_le (e : ℚ) : multiplier e ≤ 1.3 := by
  rw [multiplier, maxVisemeDuration]
  split_ifs with h1
  · exact le_rfl
  · refine max_le (by norm_num) ?_
    have : (0 : ℚ) < (e - 100) / 1000 := by
      apply div_pos _ (by norm_num)
      linarith [not_le.1 h1]
    linarith

lemma multiplier_ge_half (e : ℚ) : 0.5 ≤ multiplier e := by
  rw [multiplier, maxVisemeDuration]
  split_ifs with h1
  · norm_num
  · exact le_max_left _ _

lemma pbase_le (vd av cd : ℚ) : pbase vd av cd ≤ 0.4 := by
  rw [pbase]
  split_ifs <;> norm_num

/-- When the current frame is silent (volume and centroid 0) and the averaged
volume is at most 0.1, the score table is: 1 for silence, the plosive base for
the plosive family, 0 elsewhere. -/
lemma scores_of_silent_current (current averaged : AudioFeatures) (vd cd : ℚ)
    (hcv : current.volume = 0) (hcc : current.centroid = 0)
    (havg : averaged.volume ≤ 0.1) :
    computeVisemeScores current averaged vd cd = fun v =>
      if v = .sil then 1
      else if v = .PP ∨ v = .DD ∨ v = .KK ∨ v = .NN then pbase vd averaged.volume cd
      else 0 := by
  funext v
  have h1 : averaged.volume < 0.2 := lt_of_le_of_lt havg (by norm_num)
  have h2 : ¬(0.1 < averaged.volume) := not_lt.2 havg
  have h3 : ¬(1000 < current.centroid) := by rw [hcc]; norm_num
  have h4 : ¬(6000 < current.centroid) := by rw [hcc]; norm_num
  have h5 : current.volume < 0.2 := by rw [hcv]; norm_num
  simp only [computeVisemeScores, plosiveFold_eq, ite_apply, update_apply, addTo_apply]
  simp only [h1, h2, h3, h4, h5, true_and, and_true, if_true, if_false,
    false_and, and_false, if_neg, ite_false, not_false_iff]
  rcases v <;> simp

lemma selectBest_eq_sil (s : Viseme → ℚ)
    (h : ∀ v : Viseme, v ≠ .sil → s v < s .sil) : selectBest s = .sil := by
  by_contra hne
  exact absurd (le_selectBest s .sil) (not_le.2 (h _ hne))

lemma silent_tick_selects_sil (current averaged : AudioFeatures) (vd cd : ℚ)
    (cur : Viseme) (elapsed : ℚ)
    (hcv : current.volume = 0) (hcc : current.centroid = 0)
    (havg : averaged.volume ≤ 0.1) :
    selectBest (adjustScoresForConsistency cur elapsed
      (computeVisemeScores current averaged vd cd)) = .sil := by
  apply selectBest_eq_sil
  intro v hv
  simp only [adjustScoresForConsistency,
    scores_of_silent_current current averaged vd cd hcv hcc havg]
  simp only [hv, if_false, if_true, ite_false, ite_true, eq_self_iff_true, one_mul]
  set T := (if v = .PP ∨ v = .DD ∨ v = .KK ∨ v = .NN
      then pbase vd averaged.volume cd else 0) with hT
  have hval : T ≤ 0.4 := by
    rw [hT]
    split_ifs
    · exact pbase_le _ _ _
    · norm_num
  split_ifs with hvc hsc hsc <;>
    nlinarith [hval, multiplier_le elapsed, multiplier_pos elapsed,
      multiplier_ge_half elapsed]

/-- C2 (amended): a zero-magnitude frame always yields a snapshot with
volume 0 and centroid 0, and it is never pushed, so the history is unchanged;
the viseme becomes Silence within one such tick provided the averaged volume
of the retained history is at most 0.1 (in particular right after a connect,
when the history is empty). In general prior non-silent snapshots are
retained through silence and can keep a vowel or consonant selected. -/
theorem C2_silence_idempotence (st : SessionState) (n : ℕ) (now : ℚ)
    (hconn : st.connected = true)
    (havg : (getAveragedFeatures st.history).volume ≤ 0.1) :
    (extractFeatures st.binWidth st.history (List.replicate n 0)).volume = 0 ∧
    (extractFeatures st.binWidth st.history (List.replicate n 0)).centroid = 0 ∧
    (processAudio st (List.replicate n 0) now).history = st.history ∧
    (processAudio st (List.replicate n 0) now).currentViseme = .sil := by
  obtain ⟨hv0, hc0⟩ := extractFeatures_replicate_zero st.binWidth st.history n
  have hpush : pushHistory st.history
      (extractFeatures st.binWidth st.history (List.replicate n 0))
      (totalEnergy (List.replicate n 0)) = st.history := by
    rw [totalEnergy_replicate_zero, pushHistory]
    norm_num
  have hnotfalse : ¬(st.connected = false) := by rw [hconn]; simp
  refine ⟨hv0, hc0, ?_, ?_⟩ <;>
    · rw [processAudio, if_neg hnotfalse]
      dsimp only
      rw [hpush]
      rw [silent_tick_selects_sil _ _ _ _ _ _ hv0 hc0 havg]
      split_ifs with hbest
      · simp [← hbest]
      · simp

/-! ### Evaluating the pipeline on structured frames -/

/-- A frame holding the value `v` on the index interval `[a, b)` and 0 elsewhere. -/
def stepFrame (n a b : ℕ) (v : ℚ) : List ℚ :=
  (List.range n).map fun i => if a ≤ i ∧ i < b then v else 0

lemma sum_map_range (f : ℕ → ℚ) : ∀ n, ((List.range n).map f).sum = ∑ i in Finset.range n, f i := by
  intro n
  induction n with
  | zero => simp
  | succ n ih =>
    rw [List.range_succ, List.map_append, List.sum_append, Finset.sum_range_succ, ih]
    simp

lemma range_drop (n s : ℕ) : (List.range n).drop s = List.range' s (n - s) := by
  apply List.ext_getElem?
  intro i
  rw [List.getElem?_drop]
  by_cases h : i < n - s
  · rw [List.getElem?_range (by omega), List.getElem?_range' s 1 h]
    simp
  · rw [List.getElem?_eq_none (by rw [List.length_range]; omega),
      List.getElem?_eq_none (by rw [List.length_range']; omega)]

lemma range'_take (s m k : ℕ) : (List.range' s m).take k = List.range' s (min k m) := by
  apply List.ext_getElem?
  intro i
  rw [List.getElem?_take]
  by_cases h1 : i < k
  · rw [if_pos h1]
    by_cases h2 : i < m
    · rw [List.getElem?_range' s 1 h2, List.getElem?_range' s 1 (show i < min k m by omega)]
    · rw [List.getElem?_eq_none (by rw [List.length_range']; omega),
        List.getElem?_eq_none (by rw [List.length_range']; omega)]
  · rw [if_neg h1]
    exact (List.getElem?_eq_none (by rw [List.length_range']; omega)).symm

lemma slice_map_range (f : ℕ → ℚ) (n s k : ℕ) :
    (((List.range n).map f).drop s).take k = (List.range' s (min k (n - s))).map f := by
  rw [← List.map_drop, ← List.map_take, range_drop, range'_take]

lemma sum_map_range' (f : ℕ → ℚ) (s m : ℕ) :
    ((List.range' s m).map f).sum = ∑ j in Finset.range m, f (s + j) := by
  rw [List.range'_eq_map_range, List.map_map]
  exact sum_map_range _ m

lemma sum_range_ite_interval (m lo hi : ℕ) (c : ℚ) :
    (∑ j in Finset.range m, if lo ≤ j ∧ j < hi then c else 0) =
      ((min m hi - lo : ℕ) : ℚ) * c := by
  have hcond : ∀ j : ℕ, (lo ≤ j ∧ j < hi) ↔ j ∈ Finset.Ico lo hi := by
    intro j
    rw [Finset.mem_Ico]
  simp only [hcond]
  rw [Finset.sum_ite_mem, Finset.range_eq_Ico, Finset.Ico_inter_Ico, Finset.sum_const,
    Nat.card_Ico, nsmul_eq_mul]
  congr 2
  omega

lemma average_eq_zero (l : List ℚ) (h : ∀ x ∈ l, x = 0) : average l = 0 := by
  rw [average, List.sum_eq_zero h]
  split_ifs <;> simp

lemma sum_map_div (l : List ℚ) (c : ℚ) : (l.map fun x => x / c).sum = l.sum / c := by
  induction l with
  | nil => simp
  | cons x l ih => simp [ih, add_div]

lemma average_map_div (l : List ℚ) (c : ℚ) :
    average (l.map fun x => x / c) = average l / c := by
  rw [average, average, List.length_map, sum_map_div]
  split_ifs with h
  · simp
  · rw [div_div, div_div, mul_comm]

lemma getD_stepFrame (n a b : ℕ) (v : ℚ) (i : ℕ) :
    (stepFrame n a b v).getD i 0 =
      if i < n then (if a ≤ i ∧ i < b then v else 0) else 0 := by
  rw [stepFrame, List.getD_eq_getElem?_getD, List.getElem?_map]
  by_cases h : i < n
  · rw [List.getElem?_range h, if_pos h]
    rfl
  · rw [List.getElem?_eq_none (by rw [List.length_range]; omega), if_neg h]
    rfl

lemma stepFrame_length (n a b : ℕ) (v : ℚ) : (stepFrame n a b v).length = n := by
  rw [stepFrame, List.length_map, List.length_range]

lemma totalEnergy_stepFrame (n a b : ℕ) (v : ℚ) :
    totalEnergy (stepFrame n a b v) = ((min n b - a : ℕ) : ℚ) * (v / 255) := by
  rw [totalEnergy, stepFrame_length, sum_map_range]
  have hcongr : ∀ i ∈ Finset.range n,
      (stepFrame n a b v).getD i 0 / 255 = if a ≤ i ∧ i < b then v / 255 else 0 := by
    intro i hi
    rw [getD_stepFrame, if_pos (Finset.mem_range.1 hi)]
    split_ifs <;> simp
  rw [Finset.sum_congr rfl hcongr, sum_range_ite_interval]

lemma sum_range_ite_weighted (n lo hi : ℕ) (c : ℚ) (hhi : hi ≤ n) :
    (∑ i in Finset.range n, if lo ≤ i ∧ i < hi then (i : ℚ) * c else 0) =
      ((∑ i in Finset.Ico lo hi, i : ℕ) : ℚ) * c := by
  have hcond : ∀ j : ℕ, (lo ≤ j ∧ j < hi) ↔ j ∈ Finset.Ico lo hi := by
    intro j
    rw [Finset.mem_Ico]
  simp only [hcond]
  rw [Finset.sum_ite_mem, Finset.range_eq_Ico, Finset.Ico_inter_Ico,
    show max 0 lo = lo by omega, show min n hi = hi by omega,
    Nat.cast_sum, Finset.sum_mul]

lemma weightedSum_stepFrame (bw : ℚ) (n a b : ℕ) (v : ℚ) (hbn : b ≤ n) :
    weightedSum bw (stepFrame n a b v) =
      ((∑ i in Finset.Ico a b, i : ℕ) : ℚ) * (bw * (v / 255)) := by
  rw [weightedSum, stepFrame_length, sum_map_range]
  have hcongr : ∀ i ∈ Finset.range n,
      (i * bw) * ((stepFrame n a b v).getD i 0 / 255) =
        if a ≤ i ∧ i < b then (i : ℚ) * (bw * (v / 255)) else 0 := by
    intro i hi
    rw [getD_stepFrame, if_pos (Finset.mem_range.1 hi)]
    split_ifs <;> ring
  rw [Finset.sum_congr rfl hcongr, sum_range_ite_weighted _ _ _ _ hbn]

lemma slice_avg_stepFrame (n a b s k : ℕ) (v : ℚ) :
    average (((stepFrame n a b v).drop s).take k) =
      if min k (n - s) = 0 then 0
      else ((min (min k (n - s)) (b - s) - (a - s) : ℕ) : ℚ) * v
        / ((min k (n - s) : ℕ) : ℚ) := by
  rw [stepFrame, slice_map_range, average, List.length_map, List.length_range']
  split_ifs with h
  · rfl
  · rw [sum_map_range']
    have hcond : ∀ j : ℕ, (a ≤ s + j ∧ s + j < b) ↔ (a - s ≤ j ∧ j < b - s) := by
      intro j
      omega
    simp only [hcond]
    rw [sum_range_ite_interval]

lemma jsRound_eq_floor (x : ℚ) : jsRound x = ⌊x + 1/2⌋ := rfl

lemma jsRound_val (x : ℚ) (n : ℤ) (h1 : (n : ℚ) ≤ x + 1/2) (h2 : x + 1/2 < n + 1) :
    jsRound x = n := by
  rw [jsRound_eq_floor]
  exact Int.floor_eq_iff.mpr ⟨h1, h2⟩

/-! ### The concrete loud frame: 255 on bins 9..53 at the default bin width -/

lemma bin50 : (jsRound (50 / (44100 / 2048 : ℚ))).toNat = 2 := by
  rw [jsRound_val _ 2 (by norm_num) (by norm_num)]
  rfl

lemma bin200 : (jsRound (200 / (44100 / 2048 : ℚ))).toNat = 9 := by
  rw [jsRound_val _ 9 (by norm_num) (by norm_num)]
  rfl

lemma bin400 : (jsRound (400 / (44100 / 2048 : ℚ))).toNat = 19 := by
  rw [jsRound_val _ 19 (by norm_num) (by norm_num)]
  rfl

lemma bin800 : (jsRound (800 / (44100 / 2048 : ℚ))).toNat = 37 := by
  rw [jsRound_val _ 37 (by norm_num) (by norm_num)]
  rfl

lemma bin1500 : (jsRound (1500 / (44100 / 2048 : ℚ))).toNat = 70 := by
  rw [jsRound_val _ 70 (by norm_num) (by norm_num)]
  rfl

lemma bin2500 : (jsRound (2500 / (44100 / 2048 : ℚ))).toNat = 116 := by
  rw [jsRound_val _ 116 (by norm_num) (by norm_num)]
  rfl

lemma bin4000 : (jsRound (4000 / (44100 / 2048 : ℚ))).toNat = 186 := by
  rw [jsRound_val _ 186 (by norm_num) (by norm_num)]
  rfl

lemma bin8000 : (jsRound (8000 / (44100 / 2048 : ℚ))).toNat = 372 := by
  rw [jsRound_val _ 372 (by norm_num) (by norm_num)]
  rfl

lemma bandEnergies_f1 :
    bandEnergies (44100 / 2048) (stepFrame 1024 9 54 255) =
      [0, 1, 1, 17/33, 0, 0, 0] := by
  rw [bandEnergies, bands]
  simp only [List.map_cons, List.map_nil, stepFrame_length]
  rw [bin50, bin200, bin400, bin800, bin1500, bin2500, bin4000, bin8000]
  simp only [slice_avg_stepFrame]
  norm_num

/-- Snapshot extracted from the loud frame (255 on bins 9..53). -/
def f1Features : AudioFeatures :=
  { bands := [0, 1, 1, 17/33, 0, 0, 0]
    deltaBands := [0, 0, 0, 0, 0, 0, 0]
    volume := 83/231
    centroid := 341775/512 }

/-- Averaged features over the single stored loud snapshot. -/
def avgF1 : AudioFeatures :=
  { bands := [0, 1, 1, 17/33, 0, 0, 0]
    deltaBands := List.replicate 7 0
    volume := 83/231
    centroid := 341775/512 }

lemma totalEnergy_f1 : totalEnergy (stepFrame 1024 9 54 255) = 45 := by
  rw [totalEnergy_stepFrame]
  norm_num

lemma centroid_f1 : centroid (44100 / 2048) (stepFrame 1024 9 54 255) = 341775/512 := by
  rw [centroid, totalEnergy_f1, if_pos (show (0 : ℚ) < 45 by norm_num),
    weightedSum_stepFrame (44100 / 2048) 1024 9 54 255 (by norm_num),
    show (∑ i in Finset.Ico 9 54, i) = 1395 from by decide]
  norm_num

lemma extractFeatures_f1 :
    extractFeatures (44100 / 2048) [] (stepFrame 1024 9 54 255) = f1Features := by
  have hd : deltaBands ([] : List AudioFeatures) [0, 1, 1, 17/33, 0, 0, 0] =
      [0, 0, 0, 0, 0, 0, 0] := rfl
  have hv : average [0, 1, 1, 17/33, 0, 0, 0] = 83/231 := by
    rw [average]
    norm_num
  simp only [extractFeatures, bandEnergies_f1, hd, hv, centroid_f1, f1Features]

lemma getAveragedFeatures_f1 : getAveragedFeatures [f1Features] = avgF1 := by
  rw [getAveragedFeatures]
  norm_num [f1Features, avgF1, bands, List.range_succ]

/-- Snapshot extracted from an all-zero frame while one loud snapshot is stored. -/
def silentFeatures : AudioFeatures :=
  { bands := List.replicate 7 0
    deltaBands := [0, 0, 0, 0, 0, 0, 0]
    volume := 0
    centroid := 0 }

lemma extractFeatures_zero_after_f1 :
    extractFeatures (44100 / 2048) [f1Features] (List.replicate 1024 0) = silentFeatures := by
  have hd : deltaBands [f1Features] (List.replicate 7 0) = [0, 0, 0, 0, 0, 0, 0] := rfl
  simp only [extractFeatures, bandEnergies_replicate_zero, hd, average_replicate_zero,
    centroid_replicate_zero, silentFeatures]

/-- With the loud snapshot as average, a low-delta frame with a low centroid
scores E = 1, U = 0.7, the plosives −0.5 and everything else 0. -/
lemma scores_avgF1 (current : AudioFeatures) (vd cd : ℚ) (h1 : vd < 1/100)
    (h2 : ¬(1000 < cd)) (h3 : ¬(1000 < current.centroid))
    (h4 : current.centroid < 6000) (v : Viseme) :
    computeVisemeScores current avgF1 vd cd v =
      if v = .E then 1 else if v = .U then 0.7
      else if v = .PP ∨ v = .DD ∨ v = .KK ∨ v = .NN then -(0.5 : ℚ) else 0 := by
  rcases v <;>
    · simp only [computeVisemeScores, plosiveFold_eq, ite_apply, update_apply, addTo_apply]
      norm_num [avgF1, pbase, jsAbs, max_def, h1, h2, h3, h4]

lemma selectBest_eq_target (s : Viseme → ℚ) (t : Viseme)
    (h : ∀ v : Viseme, v ≠ t → s v < s t) : selectBest s = t := by
  by_contra hne
  exact absurd (le_selectBest s t) (not_le.2 (h _ hne))

lemma select_avgF1_from_sil (current : AudioFeatures) (vd cd elapsed : ℚ)
    (h1 : vd < 1/100) (h2 : ¬(1000 < cd)) (h3 : ¬(1000 < current.centroid))
    (h4 : current.centroid < 6000) :
    selectBest (adjustScoresForConsistency .sil elapsed
      (computeVisemeScores current avgF1 vd cd)) = .E := by
  apply selectBest_eq_target
  intro v hv
  simp only [adjustScoresForConsistency, scores_avgF1 current vd cd h1 h2 h3 h4]
  rcases v <;> simp_all <;> norm_num

lemma select_avgF1_from_E (current : AudioFeatures) (vd cd elapsed : ℚ)
    (h1 : vd < 1/100) (h2 : ¬(1000 < cd)) (h3 : ¬(1000 < current.centroid))
    (h4 : current.centroid < 6000) (he : elapsed ≤ 100) :
    selectBest (adjustScoresForConsistency .E elapsed
      (computeVisemeScores current avgF1 vd cd)) = .E := by
  apply selectBest_eq_target
  intro v hv
  have hm : multiplier elapsed = 1.3 := by
    rw [multiplier, if_pos he]
  simp only [adjustScoresForConsistency, scores_avgF1 current vd cd h1 h2 h3 h4]
  rcases v <;> simp_all <;> norm_num

/-- The session state reached by `connect` at time 0 with a 44100 Hz stream. -/
def stConn : SessionState :=
  { connected := true
    currentViseme := .sil
    visemeStartTime := 0
    history := []
    binWidth := 44100 / 2048
    graphEdges := [(.source, .analyser)] }

/-- The session state after the loud tick at time 10. -/
def stLoud : SessionState :=
  { connected := true
    currentViseme := .E
    visemeStartTime := 10
    history := [f1Features]
    binWidth := 44100 / 2048
    graphEdges := [(.source, .analyser)] }

lemma connect_eq_stConn : connectStream initState 0 44100 = stConn := rfl

lemma loud_tick_eq_stLoud :
    processAudio stConn (stepFrame 1024 9 54 255) 10 = stLoud := by
  rw [processAudio]
  rw [if_neg (show ¬(stConn.connected = false) by decide)]
  rw [show stConn.binWidth = 44100 / 2048 from rfl, show stConn.history = [] from rfl]
  rw [extractFeatures_f1, totalEnergy_f1]
  dsimp only
  rw [show pushHistory [] f1Features 45 = [f1Features] by
    rw [pushHistory]
    norm_num [historySize]]
  rw [getAveragedFeatures_f1]
  rw [show stConn.currentViseme = Viseme.sil from rfl,
    show stConn.visemeStartTime = (0 : ℚ) from rfl]
  rw [select_avgF1_from_sil f1Features _ _ (10 - 0)
    (by norm_num [f1Features, avgF1]) (by norm_num [f1Features, avgF1])
    (by norm_num [f1Features]) (by norm_num [f1Features])]
  rw [if_neg (show ¬(Viseme.E = Viseme.sil) by decide)]
  rfl

lemma silent_tick_keeps_E (now : ℚ) (hnow : now - 10 ≤ 100) :
    processAudio stLoud (List.replicate 1024 0) now = stLoud := by
  rw [processAudio]
  rw [if_neg (show ¬(stLoud.connected = false) by decide)]
  rw [show stLoud.binWidth = 44100 / 2048 from rfl,
    show stLoud.history = [f1Features] from rfl]
  rw [extractFeatures_zero_after_f1, totalEnergy_replicate_zero]
  dsimp only
  rw [show pushHistory [f1Features] silentFeatures 0 = [f1Features] by
    rw [pushHistory]
    norm_num]
  rw [getAveragedFeatures_f1]
  rw [show stLoud.currentViseme = Viseme.E from rfl,
    show stLoud.visemeStartTime = (10 : ℚ) from rfl]
  rw [select_avgF1_from_E silentFeatures _ _ (now - 10)
    (by norm_num [silentFeatures, avgF1]) (by norm_num [silentFeatures, avgF1])
    (by norm_num [silentFeatures]) (by norm_num [silentFeatures]) hnow]
  rw [if_pos rfl]
  rfl

lemma run_cons (st : SessionState) (e : Event) (es : List Event) :
    run st (e :: es) = run (step st e) es := rfl

lemma run_nil (st : SessionState) : run st [] = st := rfl

lemma step_connect_eq_stConn : step initState (Event.connect 0 44100) = stConn := rfl

lemma step_loud_eq_stLoud :
    step stConn (Event.tick (stepFrame 1024 9 54 255) 10) = stLoud := by
  show processAudio stConn (stepFrame 1024 9 54 255) 10 = stLoud
  exact loud_tick_eq_stLoud

lemma step_silent_keeps_stLoud (now : ℚ) (hnow : now - 10 ≤ 100) :
    step stLoud (Event.tick (List.replicate 1024 0) now) = stLoud := by
  show processAudio stLoud (List.replicate 1024 0) now = stLoud
  exact silent_tick_keeps_E now hnow

/-- C2 counterexample: from the reachable state holding one loud, vowel-like
snapshot (connect, then a 255-valued frame on bins 9..53 at t = 10), feeding an
all-zero frame at t = 20 leaves `currentViseme = E`, not Silence: the zero
frame is never pushed, so the stored loud snapshot keeps the averaged volume at
83/231 ≥ 0.2 and the vowel rules keep firing. -/
theorem C2_counterexample :
    (run initState [Event.connect 0 44100,
      Event.tick (stepFrame 1024 9 54 255) 10,
      Event.tick (List.replicate 1024 0) 20]).currentViseme = Viseme.E ∧
    Viseme.E ≠ Viseme.sil := by
  constructor
  · rw [run_cons, step_connect_eq_stConn, run_cons, step_loud_eq_stLoud,
      run_cons, step_silent_keeps_stLoud 20 (by norm_num), run_nil]
    rfl
  · decide

/-- C7 counterexample: after the same loud tick, two consecutive zero-energy
frames leave the history still holding the loud snapshot (the buffer does not
empty during true silence), and the averaged features still report its volume
83/231 rather than resetting. -/
theorem C7_counterexample :
    (run initState [Event.connect 0 44100,
      Event.tick (stepFrame 1024 9 54 255) 10,
      Event.tick (List.replicate 1024 0) 20,
      Event.tick (List.replicate 1024 0) 30]).history = [f1Features] ∧
    [f1Features] ≠ ([] : List AudioFeatures) ∧
    (getAveragedFeatures [f1Features]).volume = 83/231 ∧ (83/231 : ℚ) ≠ 0 := by
  refine ⟨?_, by simp, ?_, by norm_num⟩
  · rw [run_cons, step_connect_eq_stConn, run_cons, step_loud_eq_stLoud,
      run_cons, step_silent_keeps_stLoud 20 (by norm_num),
      run_cons, step_silent_keeps_stLoud 30 (by norm_num), run_nil]
    rfl
  · rw [getAveragedFeatures_f1]
    rfl

/-- C7 (amended): a zero-energy frame is never admitted to the history, and
the buffer is otherwise untouched by the tick, so during sustained true
silence the stored snapshots — including those from before the silence — are
retained unchanged and keep determining the averaged features; the buffer
never empties during silence (only `disconnect`/`connect` clear it, and only
new non-silent frames evict old entries). -/
theorem C7_history_retained (st : SessionState) (frame : List ℚ) (now : ℚ)
    (hconn : st.connected = true) (hTE : totalEnergy frame = 0) :
    (processAudio st frame now).history = st.history ∧
    getAveragedFeatures (processAudio st frame now).history =
      getAveragedFeatures st.history := by
  have hp : pushHistory st.history (extractFeatures st.binWidth st.history frame)
      (totalEnergy frame) = st.history := by
    rw [hTE, pushHistory]
    norm_num
  have hnf : ¬(st.connected = false) := by
    rw [hconn]
    simp
  constructor <;>
    · rw [processAudio, if_neg hnf]
      dsimp only
      rw [hp]
      split_ifs <;> rfl

/-- C7 witness: from the reachable state holding the loud snapshot, a
zero-energy tick leaves the history exactly as it was. -/
theorem C7_history_retained_witness :
    (processAudio stLoud (List.replicate 1024 0) 40).history = stLoud.history :=
  (C7_history_retained stLoud (List.replicate 1024 0) 40 rfl
    (totalEnergy_replicate_zero 1024)).1

/-- C2 witness: right after a connect (empty history, averaged volume 0), an
all-zero frame makes the viseme Silence within one tick. -/
theorem C2_silence_idempotence_witness :
    (processAudio (connectStream initState 0 44100) (List.replicate 1024 0) 16).currentViseme
      = Viseme.sil := by
  have havg : (getAveragedFeatures (connectStream initState 0 44100).history).volume ≤ 0.1 := by
    rw [show (connectStream initState 0 44100).history = [] from rfl, getAveragedFeatures]
    norm_num
  exact (C2_silence_idempotence (connectStream initState 0 44100) 1024 16 rfl havg).2.2.2

/-! ### C6: band bins are selected by rounded index, not by frequency -/

/-- The band rule as the claim states it: for each band, the average of the
normalized magnitudes of exactly those bins whose frequency `i · binWidth`
lies in `[lowHz, highHz)`, over the valid bin indices of the frame. -/
def claimBandEnergies (binWidth : ℚ) (frame : List ℚ) : List ℚ :=
  bands.map fun se =>
    average (((List.range frame.length).filter fun (i : ℕ) =>
      decide (se.1 ≤ (i : ℚ) * binWidth ∧ (i : ℚ) * binWidth < se.2)).map
      fun i => frame.getD i 0 / 255)

lemma slice_eq_map_range' (l : List ℚ) (s k : ℕ) :
    (l.drop s).take k = (List.range' s (min k (l.length - s))).map fun i => l.getD i 0 := by
  apply List.ext_getElem?
  intro j
  rw [List.getElem?_take]
  by_cases h1 : j < k
  · rw [if_pos h1, List.getElem?_drop]
    by_cases h2 : j < min k (l.length - s)
    · rw [List.getElem?_map, List.getElem?_range' s 1 h2]
      have hsj : s + j < l.length := by omega
      rw [List.getElem?_eq_getElem hsj]
      simp [List.getD_eq_getElem?_getD, List.getElem?_eq_getElem, hsj]
    · rw [List.getElem?_eq_none (show l.length ≤ s + j by omega),
        List.getElem?_eq_none (by rw [List.length_map, List.length_range']; omega)]
  · rw [if_neg h1]
    exact (List.getElem?_eq_none (by rw [List.length_map, List.length_range']; omega)).symm

/-- C6 (amended) band rule: the bins of a band are exactly those whose INDEX
lies in the half-open rounded range `[round(lowHz/binWidth),
min(round(highHz/binWidth), nBins − 1))`; the average is taken over their
normalized magnitudes. -/
def roundedBandAverage (binWidth : ℚ) (frame : List ℚ) (lo hi : ℚ) : ℚ :=
  average ((List.range' ((jsRound (lo / binWidth)).toNat)
      (min ((jsRound (hi / binWidth)).toNat) (frame.length - 1)
        - (jsRound (lo / binWidth)).toNat)).map
    fun i => frame.getD i 0 / 255)

/-- C6 (amended): each extracted band energy is the average of the normalized
magnitudes of the bins whose index lies in the rounded, clamped index range
`[round(lowHz/binWidth), min(round(highHz/binWidth), nBins − 1))` — an index
criterion that only approximates the claimed frequency criterion
`lowHz ≤ i·binWidth < highHz`, and that always excludes the last valid bin. -/
theorem C6_band_bins_by_rounded_index (binWidth : ℚ) (frame : List ℚ) :
    bandEnergies binWidth frame =
      bands.map fun se => roundedBandAverage binWidth frame se.1 se.2 := by
  rw [bandEnergies]
  apply List.map_congr_left
  intro se hse
  dsimp only
  rw [slice_eq_map_range']
  have he1 : min ((jsRound (se.2 / binWidth)).toNat) (frame.length - 1) ≤ frame.length - 1 :=
    min_le_right _ _
  rw [show min (min ((jsRound (se.2 / binWidth)).toNat) (frame.length - 1)
        - (jsRound (se.1 / binWidth)).toNat)
      (frame.length - (jsRound (se.1 / binWidth)).toNat)
    = min ((jsRound (se.2 / binWidth)).toNat) (frame.length - 1)
        - (jsRound (se.1 / binWidth)).toNat by omega]
  rw [roundedBandAverage, ← average_map_div, List.map_map]
  rfl

/-- C6 counterexample: with the default 44100/2048 bin width and a frame whose
only energy sits in bin 2 (frequency ≈ 43.1 Hz, outside the 50–200 Hz band),
the extractor's first band energy is 1/7 — bin 2 is inside the rounded index
range [2, 9) — while the claimed frequency-criterion average over [50, 200) Hz
is 0. -/
theorem C6_counterexample :
    (bandEnergies (44100 / 2048) (stepFrame 1024 2 3 255)).getD 0 0 = 1/7 ∧
    (claimBandEnergies (44100 / 2048) (stepFrame 1024 2 3 255)).getD 0 0 = 0 ∧
    (1/7 : ℚ) ≠ 0 := by
  refine ⟨?_, ?_, by norm_num⟩
  · rw [bandEnergies, bands]
    simp only [List.map_cons, List.map_nil, stepFrame_length]
    rw [bin50, bin200]
    simp only [List.getD_cons_zero]
    rw [slice_avg_stepFrame]
    norm_num
  · rw [claimBandEnergies, bands]
    simp only [List.map_cons, List.map_nil, stepFrame_length]
    simp only [List.getD_cons_zero]
    rw [average_eq_zero]
    intro x hx
    rcases List.mem_map.1 hx with ⟨i, hi, rfl⟩
    rcases List.mem_filter.1 hi with ⟨hirange, hcond⟩
    rcases of_decide_eq_true hcond with ⟨hlo, hhi⟩
    have h3 : 3 ≤ i := by
      by_contra hc
      push_neg at hc
      have hi2 : (i : ℚ) ≤ 2 := by
        exact_mod_cast Nat.le_of_lt_succ hc
      have : (i : ℚ) * (44100 / 2048) ≤ 2 * (44100 / 2048) := by
        apply mul_le_mul_of_nonneg_right hi2
        norm_num
      linarith [this, show (2 : ℚ) * (44100 / 2048) < 50 by norm_num]
    rw [getD_stepFrame]
    split_ifs with hA hB
    · omega
    · norm_num
    · norm_num

end WebRTCLipsync
